import Mathlib

/-!
Shallow embedding of the token-lifecycle and response-caching core of the
3800km dashboard, together with theorems settling the frozen claims about it.

Conventions of the embedding:
* JavaScript `Date.now()` (milliseconds) and the token layer's epoch seconds
  are passed in explicitly as a `now` argument to every operation that reads
  the clock in the source.
* The JS `Map` is embedded as an association list in insertion order with the
  JS semantics: setting an existing key replaces it in place, setting a new
  key appends at the end, `keys().next().value` is the head key.
* The `JSON.stringify(value).length` heuristic inside `calculateSize` is
  abstracted as an explicit function argument `jsonLen : T -> Nat` (the length
  of the serialized value); `calculateSize` itself keeps the source's
  `* 2` arithmetic.
* JS counters that the source can drive below zero (`stats.size`,
  `stats.totalMemoryUsage`) are `Int`; monotone counters are `Nat`.
* The unbounded `while` loop inside `set` is run on fuel
  `cache.length + 1`, which is enough iterations for every run of the source
  loop that terminates (each productive iteration shrinks the map by one
  entry); when the loop can make no progress the source spins forever, and
  the embedding returns `none`.  Thus `none` models non-termination of the
  source, and `some` results agree with the source state.
* Fallible network collaborators (token issuer, upstream listing endpoint)
  are passed in as explicit response values; the embedding counts the calls
  the source code makes to them.
-/

set_option linter.unusedVariables false
set_option linter.unusedTactic false
set_option linter.unreachableTactic false
set_option linter.unnecessarySeqFocus false

namespace ThreeK

/-- HTTP `response.ok` as defined by fetch: status in the 200..299 range. -/
def httpOk (status : Nat) : Bool :=
  decide (200 ≤ status) && decide (status < 300)

namespace StravaAPI

/-- Embeds `StravaAPI.shouldRefreshToken`: the token should be refreshed
proactively iff it expires within one hour (`expiresAt - now <= 3600`). -/
def shouldRefreshToken (now expiresAt : Int) : Bool :=
  decide (expiresAt - now ≤ 3600)

/-- Embeds `StravaAPI.isTokenExpired`: true iff `now >= expiresAt`. -/
def isTokenExpired (now expiresAt : Int) : Bool :=
  decide (now ≥ expiresAt)

/-- The validated token triple the source calls `StravaTokenResponse`
(after the field checks in `refreshToken` have passed). -/
structure StravaTokenResponse where
  access_token : String
  refresh_token : String
  expires_at : Int
deriving DecidableEq, Repr

/-- Raw response of the token issuer as `refreshToken` sees it: an HTTP
status plus the three JSON fields, each possibly absent.  A JS-falsy field
(absent, empty string, or zero) fails the source's validation. -/
structure IssuerHttpResponse where
  status : Nat
  access_token : Option String
  refresh_token : Option String
  expires_at : Option Int
deriving DecidableEq, Repr

/-- Error classification of `StravaAPI.refreshToken` (the messages of the
`throw new Error(...)` sites). -/
inductive RefreshError where
  | invalidCredentials
  | revokedToken
  | httpFailure (status : Nat)
  | invalidTokenResponse
deriving DecidableEq, Repr

/-- True exactly on the error results of a refresh attempt. -/
def isErr {e a : Type} : Except e a → Bool
  | .error _ => true
  | .ok _ => false

/-- Embeds `StravaAPI.refreshToken`: one issuer call, classify non-2xx
statuses, and reject a 2xx body whose `access_token`, `refresh_token` or
`expires_at` is JS-falsy (`!tokenData.field`). -/
def refreshToken (resp : IssuerHttpResponse) : Except RefreshError StravaTokenResponse :=
  if httpOk resp.status then
    match resp.access_token, resp.refresh_token, resp.expires_at with
    | some a, some r, some e =>
      if a == "" || r == "" || e == 0 then .error .invalidTokenResponse
      else .ok ⟨a, r, e⟩
    | _, _, _ => .error .invalidTokenResponse
  else if resp.status == 400 then .error .invalidCredentials
  else if resp.status == 401 then .error .revokedToken
  else .error (.httpFailure resp.status)

/-- Observable outcome of `ensureValidToken`: the returned access token (or
the thrown error message), how many issuer calls happened, and how many
token-store writes were attempted. -/
structure EnsureOutcome where
  result : Except String String
  issuerCalls : Nat
  storeWrites : Nat
deriving Repr

/-- Embeds `StravaAPI.ensureValidToken`.  `issuer` maps the refresh token the
source sends to the issuer's raw response; `storeWriteOk` says whether the
database update succeeds.  The source logs a failed update but still returns
the new access token, so the outcome does not depend on `storeWriteOk`. -/
def ensureValidToken (now : Int) (currentAccessToken currentRefreshToken : String)
    (expiresAt : Int) (issuer : String → IssuerHttpResponse) (storeWriteOk : Bool) :
    EnsureOutcome :=
  if shouldRefreshToken now expiresAt then
    match refreshToken (issuer currentRefreshToken) with
    | .ok newTokenData => ⟨.ok newTokenData.access_token, 1, 1⟩
    | .error _ => ⟨.error "Token refresh failed. Re-authentication required.", 1, 0⟩
  else ⟨.ok currentAccessToken, 0, 0⟩

end StravaAPI

/-- A stored cache entry (`CacheEntry<T>` of the source): the value, its
creation instant in ms, its TTL in ms, and its own key. -/
structure CacheEntry (T : Type) where
  value : T
  timestamp : Nat
  ttl : Nat
  key : String
deriving DecidableEq, Repr

/-- The `CacheStats` record of the source.  `size` and `totalMemoryUsage`
are `Int` because the source arithmetic can drive them below zero. -/
structure CacheStats where
  hits : Nat
  misses : Nat
  sets : Nat
  deletes : Nat
  size : Int
  totalMemoryUsage : Int
deriving DecidableEq, Repr

/-- State of one `InMemoryCache` instance: the JS `Map` in insertion order,
the stats record, and the capacity bound. -/
structure InMemoryCache (T : Type) where
  cache : List (String × CacheEntry T)
  stats : CacheStats
  maxSize : Nat
deriving DecidableEq, Repr

/-- JS `Map.has`: whether some pair carries the given key. -/
def mapHas {α : Type} (m : List (String × α)) (k : String) : Bool :=
  match m with
  | [] => false
  | p :: rest => p.1 == k || mapHas rest k

/-- JS `Map.get`: the value of the first (only) pair with the given key. -/
def mapGet {α : Type} (m : List (String × α)) (k : String) : Option α :=
  match m with
  | [] => none
  | p :: rest => if p.1 == k then some p.2 else mapGet rest k

/-- JS `Map.set`: replace in place if the key is present, else append. -/
def mapSet {α : Type} (m : List (String × α)) (k : String) (v : α) :
    List (String × α) :=
  if mapHas m k then m.map (fun p => if p.1 == k then (k, v) else p)
  else m ++ [(k, v)]

/-- JS `Map.delete`: drop the pair with the given key. -/
def mapDelete {α : Type} (m : List (String × α)) (k : String) :
    List (String × α) :=
  m.filter (fun p => p.1 != k)

namespace InMemoryCache

/-- Embeds `InMemoryCache.calculateSize`: serialized length times two
(approximate UTF-16 bytes).  `jsonLen` abstracts `JSON.stringify(v).length`. -/
def calculateSize {T : Type} (jsonLen : T → Nat) (v : T) : Nat :=
  jsonLen v * 2

/-- Embeds `InMemoryCache.isExpired`: the entry's age exceeds its TTL. -/
def isExpired {T : Type} (now : Nat) (e : CacheEntry T) : Bool :=
  decide (now - e.timestamp > e.ttl)

/-- A fresh cache as built by the constructor. -/
def emptyCache {T : Type} (maxSize : Nat) : InMemoryCache T :=
  ⟨[], ⟨0, 0, 0, 0, 0, 0⟩, maxSize⟩

/-- Embeds `InMemoryCache.evictOldest`: remove the first key of the map and
retire its stats.  The source guards the eviction with `if (oldestKey)`, so a
JS-falsy oldest key (the empty string) makes this a no-op. -/
def evictOldest {T : Type} (jsonLen : T → Nat) (c : InMemoryCache T) :
    InMemoryCache T :=
  match c.cache with
  | [] => c
  | (k, e) :: rest =>
    if k = "" then c
    else
      { c with
        cache := rest
        stats := { c.stats with
          totalMemoryUsage := c.stats.totalMemoryUsage - (calculateSize jsonLen e.value : Int)
          size := c.stats.size - 1 } }

/-- The `while (this.cache.size >= this.maxSize) this.evictOldest()` loop of
`set`, run on fuel.  Each productive iteration shrinks the map, so fuel
`cache.length + 1` suffices for every terminating run of the source loop;
`none` is returned exactly when the source loop would spin forever (the
oldest key is falsy, or `maxSize = 0`). -/
def evictWhile {T : Type} (jsonLen : T → Nat) : Nat → InMemoryCache T →
    Option (InMemoryCache T)
  | 0, _ => none
  | fuel + 1, c =>
    if c.cache.length ≥ c.maxSize then evictWhile jsonLen fuel (evictOldest jsonLen c)
    else some c

/-- Embeds `InMemoryCache.set`.  Note the source's replace branch only rolls
the counters back: it never deletes the old map entry, so the capacity loop
still sees the full map.  `none` models the non-terminating eviction loop. -/
def set {T : Type} (jsonLen : T → Nat) (now : Nat) (key : String) (value : T)
    (ttlMinutes : Nat) (c : InMemoryCache T) : Option (InMemoryCache T) :=
  let ttl := ttlMinutes * 60 * 1000
  let size := calculateSize jsonLen value
  let c1 :=
    match mapGet c.cache key with
    | some existing =>
      { c with
        stats := { c.stats with
          totalMemoryUsage := c.stats.totalMemoryUsage - (calculateSize jsonLen existing.value : Int)
          size := c.stats.size - 1 } }
    | none => c
  match evictWhile jsonLen (c1.cache.length + 1) c1 with
  | none => none
  | some c2 =>
    some { c2 with
      cache := mapSet c2.cache key ⟨value, now, ttl, key⟩
      stats := { c2.stats with
        sets := c2.stats.sets + 1
        size := c2.stats.size + 1
        totalMemoryUsage := c2.stats.totalMemoryUsage + (size : Int) } }

/-- Embeds `InMemoryCache.get`: miss on absence, lazy reap (counted as a miss
and a delete) on expiry, hit otherwise. -/
def get {T : Type} (jsonLen : T → Nat) (now : Nat) (key : String)
    (c : InMemoryCache T) : Option T × InMemoryCache T :=
  match mapGet c.cache key with
  | none =>
    (none, { c with stats := { c.stats with misses := c.stats.misses + 1 } })
  | some entry =>
    if isExpired now entry then
      (none,
        { c with
          cache := mapDelete c.cache key
          stats := { c.stats with
            misses := c.stats.misses + 1
            deletes := c.stats.deletes + 1
            size := c.stats.size - 1
            totalMemoryUsage := c.stats.totalMemoryUsage - (calculateSize jsonLen entry.value : Int) } })
    else
      (some entry.value, { c with stats := { c.stats with hits := c.stats.hits + 1 } })

/-- Embeds `InMemoryCache.delete`: returns whether a removal happened. -/
def delete {T : Type} (jsonLen : T → Nat) (key : String) (c : InMemoryCache T) :
    Bool × InMemoryCache T :=
  match mapGet c.cache key with
  | some entry =>
    (true,
      { c with
        cache := mapDelete c.cache key
        stats := { c.stats with
          deletes := c.stats.deletes + 1
          size := c.stats.size - 1
          totalMemoryUsage := c.stats.totalMemoryUsage - (calculateSize jsonLen entry.value : Int) } })
  | none => (false, c)

/-- Embeds `InMemoryCache.clear`: drop all entries, reset the occupancy
counters, keep the lifetime counters. -/
def clear {T : Type} (c : InMemoryCache T) : InMemoryCache T :=
  { c with
    cache := []
    stats := { c.stats with size := 0, totalMemoryUsage := 0 } }

/-- Result of `InMemoryCache.getInfo` (field `exists` renamed `keyExists`). -/
structure CacheInfo where
  keyExists : Bool
  age : Option Nat
  ttl : Option Nat
  size : Option Nat
deriving DecidableEq, Repr

/-- JS `Math.round(a / 1000)` for a natural number of milliseconds. -/
def jsRound1000 (a : Nat) : Nat :=
  (2 * a + 1000) / 2000

/-- Embeds `InMemoryCache.getInfo`: reports presence, age, TTL and size of
the stored entry without any expiry check or removal. -/
def getInfo {T : Type} (jsonLen : T → Nat) (now : Nat) (key : String)
    (c : InMemoryCache T) : CacheInfo :=
  match mapGet c.cache key with
  | none => ⟨false, none, none, none⟩
  | some entry =>
    ⟨true, some (jsRound1000 (now - entry.timestamp)), some (jsRound1000 entry.ttl),
      some (calculateSize jsonLen entry.value)⟩

/-- Embeds `InMemoryCache.cleanup`: collect the keys of all currently expired
entries, then delete each, returning the number removed. -/
def cleanup {T : Type} (jsonLen : T → Nat) (now : Nat) (c : InMemoryCache T) :
    Nat × InMemoryCache T :=
  let expiredKeys := (c.cache.filter (fun p => isExpired now p.2)).map Prod.fst
  expiredKeys.foldl
    (fun acc k =>
      let r := delete jsonLen k acc.2
      (if r.1 then acc.1 + 1 else acc.1, r.2))
    (0, c)

end InMemoryCache

/-- One `cache.set` call as issued by a caller: key, value, TTL in minutes,
and the clock value at the moment of the call. -/
structure SetCall (T : Type) where
  key : String
  value : T
  ttlMinutes : Nat
  now : Nat
deriving DecidableEq, Repr

/-- Run a sequence of `set` calls left to right; `none` as soon as one of
them hits the non-terminating eviction loop. -/
def insertAll {T : Type} (jsonLen : T → Nat) :
    List (SetCall T) → InMemoryCache T → Option (InMemoryCache T)
  | [], c => some c
  | i :: rest, c =>
    match InMemoryCache.set jsonLen i.now i.key i.value i.ttlMinutes c with
    | none => none
    | some c1 => insertAll jsonLen rest c1

/-- The map entry that a `set` call creates. -/
def mkEntry {T : Type} (i : SetCall T) : CacheEntry T :=
  ⟨i.value, i.now, i.ttlMinutes * 60 * 1000, i.key⟩

/-- The association-list image of a sequence of fresh `set` calls. -/
def entriesOf {T : Type} (ins : List (SetCall T)) : List (String × CacheEntry T) :=
  ins.map (fun i => (i.key, mkEntry i))

/-- Total recorded size of the values of a sequence of `set` calls. -/
def memOf {T : Type} (jsonLen : T → Nat) (ins : List (SetCall T)) : Int :=
  (ins.map (fun i => (InMemoryCache.calculateSize jsonLen i.value : Int))).sum

/-- One page response of the upstream listing endpoint: HTTP status and the
parsed JSON array. -/
structure UpstreamHttp (A : Type) where
  status : Nat
  body : List A
deriving DecidableEq, Repr

/-- The single error `getActivities` throws on any non-OK page response
(`Failed to fetch activities`); the status is not part of the thrown error. -/
inductive FetchErr where
  | failedToFetch
deriving DecidableEq, Repr

/-- Embeds the `while (hasMore)` pagination loop of
`StravaAPI.getAllActivities`: fetch page after page, stop on an empty page,
throw on any non-OK response.  The returned list records the pages requested
in order; `none` means the fuel ran out (an unboundedly long listing). -/
def getAllActivitiesLoop {A : Type} (pages : Nat → UpstreamHttp A) :
    Nat → Nat → List A → List Nat → Option (Except FetchErr (List A) × List Nat)
  | 0, _, _, _ => none
  | fuel + 1, page, acc, calls =>
    let resp := pages page
    let calls1 := calls ++ [page]
    if httpOk resp.status then
      if resp.body.isEmpty then some (.ok acc, calls1)
      else getAllActivitiesLoop pages fuel (page + 1) (acc ++ resp.body) calls1
    else some (.error .failedToFetch, calls1)

/-- Embeds `StravaAPI.getAllActivities`, starting at page 1 with an empty
accumulator and an empty trace. -/
def getAllActivities {A : Type} (pages : Nat → UpstreamHttp A) (fuel : Nat) :
    Option (Except FetchErr (List A) × List Nat) :=
  getAllActivitiesLoop pages fuel 1 [] []

/-- Cache key `CACHE_KEYS.STRAVA_ACTIVITIES`. -/
def STRAVA_ACTIVITIES : String := "strava:activities"

/-- TTL `CACHE_TTL.ACTIVITIES` in minutes. -/
def ACTIVITIES_TTL : Nat := 15

/-- Observable outcome of one run of the activities route's
`fetchStravaActivities`: the returned list (or thrown error message), the
number of upstream listing calls, the number of token-refresh calls, and the
cache state afterwards. -/
structure FetchOutcome (A : Type) where
  result : Except String (List A)
  upstreamCalls : Nat
  issuerCalls : Nat
  cacheAfter : InMemoryCache (List A)

/-- Tail of `fetchStravaActivities` after the response `r` to keep has been
determined: throw on non-OK (with a dedicated message for 401), otherwise
cache the parsed body and return it. -/
def finishFetch {A : Type} (jsonLen : List A → Nat) (now : Nat)
    (c1 : InMemoryCache (List A)) (r : UpstreamHttp A) (upCalls issuerCalls : Nat) :
    Option (FetchOutcome A) :=
  if httpOk r.status then
    match InMemoryCache.set jsonLen now STRAVA_ACTIVITIES r.body ACTIVITIES_TTL c1 with
    | none => none
    | some c2 => some ⟨.ok r.body, upCalls, issuerCalls, c2⟩
  else if r.status == 401 then
    some ⟨.error "Strava authorization failed", upCalls, issuerCalls, c1⟩
  else
    some ⟨.error ("Strava API returned " ++ toString r.status), upCalls, issuerCalls, c1⟩

/-- Embeds the activities route's `fetchStravaActivities`: serve from the
cache when possible; otherwise issue the single listing request (one page of
up to 200 activities), and on a 401 perform exactly one token refresh
(`refreshStravaToken`, outcome `refreshResult`, `none` = refresh failed) and
retry the request once with the new token; then fail on any remaining non-OK
status.  `resp1` and `resp2` are the upstream's responses to the first and
the retried request. -/
def fetchStravaActivities {A : Type} (jsonLen : List A → Nat) (now : Nat)
    (c : InMemoryCache (List A)) (resp1 resp2 : UpstreamHttp A)
    (refreshResult : Option String) : Option (FetchOutcome A) :=
  match InMemoryCache.get jsonLen now STRAVA_ACTIVITIES c with
  | (some cached, c1) => some ⟨.ok cached, 0, 0, c1⟩
  | (none, c1) =>
    if resp1.status == 401 then
      match refreshResult with
      | some newTok =>
        if newTok == "" then finishFetch jsonLen now c1 resp1 1 1
        else finishFetch jsonLen now c1 resp2 2 1
      | none => finishFetch jsonLen now c1 resp1 1 1
    else finishFetch jsonLen now c1 resp1 1 0

/-- Membership fails on a map whose keys avoid `k`. -/
theorem mapHas_eq_false {α : Type} {m : List (String × α)} {k : String}
    (h : k ∉ m.map Prod.fst) : mapHas m k = false := by
  induction m with
  | nil => rfl
  | cons p rest ih =>
    simp only [List.map_cons, List.mem_cons, not_or] at h
    have hp : (p.1 == k) = false := by
      simp only [beq_eq_false_iff_ne]
      exact fun e => h.1 e.symm
    simp [mapHas, hp, ih h.2]

/-- Lookup misses when the key is absent. -/
theorem mapGet_eq_none {α : Type} {m : List (String × α)} {k : String}
    (h : k ∉ m.map Prod.fst) : mapGet m k = none := by
  induction m with
  | nil => rfl
  | cons p rest ih =>
    simp only [List.map_cons, List.mem_cons, not_or] at h
    have hp : (p.1 == k) = false := by
      simp only [beq_eq_false_iff_ne]
      exact fun e => h.1 e.symm
    simp [mapGet, hp, ih h.2]

/-- Setting an absent key appends the pair at the end. -/
theorem mapSet_of_not_mem {α : Type} {m : List (String × α)} {k : String} (v : α)
    (h : k ∉ m.map Prod.fst) : mapSet m k v = m ++ [(k, v)] := by
  unfold mapSet
  rw [mapHas_eq_false h]
  rfl

/-- Appending a pair to a map that misses its key makes the pair findable. -/
theorem mapGet_append_self {α : Type} {m : List (String × α)} {k : String} (v : α)
    (h : mapGet m k = none) : mapGet (m ++ [(k, v)]) k = some v := by
  induction m with
  | nil => simp [mapGet]
  | cons p rest ih =>
    cases hp : (p.1 == k) with
    | true => simp [mapGet, hp] at h
    | false =>
      simp only [mapGet, hp] at h
      simp only [List.cons_append, mapGet, hp]
      exact ih (by simpa using h)

/-- Replacing a present key in place makes the new pair findable. -/
theorem mapGet_replace_self {α : Type} {m : List (String × α)} {k : String} (v : α) :
    mapHas m k = true →
    mapGet (m.map (fun p => if p.1 == k then (k, v) else p)) k = some v := by
  induction m with
  | nil => intro h; simp [mapHas] at h
  | cons p rest ih =>
    intro h
    cases hp : (p.1 == k) with
    | true => simp [mapGet, hp]
    | false =>
      simp only [mapHas, hp, Bool.false_or] at h
      simp only [List.map_cons, hp, Bool.false_eq_true, if_false, mapGet]
      exact ih h

/-- After `mapSet m k v`, looking up `k` returns `v`. -/
theorem mapGet_mapSet_self {α : Type} (m : List (String × α)) (k : String) (v : α) :
    mapGet (mapSet m k v) k = some v := by
  unfold mapSet
  cases hf : mapHas m k with
  | false =>
    simp only [Bool.false_eq_true, if_false]
    apply mapGet_append_self
    induction m with
    | nil => rfl
    | cons p rest ih =>
      simp only [mapHas, Bool.or_eq_false_iff] at hf
      simp [mapGet, hf.1, ih hf.2]
  | true =>
    simp only [if_true]
    exact mapGet_replace_self v hf

/-- The eviction loop exits at once below capacity. -/
theorem evictWhile_of_lt {T : Type} (jsonLen : T → Nat) (fuel : Nat)
    (c : InMemoryCache T) (h : c.cache.length < c.maxSize) :
    InMemoryCache.evictWhile jsonLen (fuel + 1) c = some c := by
  unfold InMemoryCache.evictWhile
  rw [if_neg (by omega)]

/-- Setting a fresh key below capacity appends the entry and bumps the
counters; nothing is evicted. -/
theorem set_fresh {T : Type} (jsonLen : T → Nat) (now : Nat) (k : String) (v : T)
    (ttlMinutes : Nat) (c : InMemoryCache T)
    (hk : k ∉ c.cache.map Prod.fst) (hlen : c.cache.length < c.maxSize) :
    InMemoryCache.set jsonLen now k v ttlMinutes c = some
      { cache := c.cache ++ [(k, ⟨v, now, ttlMinutes * 60 * 1000, k⟩)]
        stats := { c.stats with
          sets := c.stats.sets + 1
          size := c.stats.size + 1
          totalMemoryUsage := c.stats.totalMemoryUsage
            + (InMemoryCache.calculateSize jsonLen v : Int) }
        maxSize := c.maxSize } := by
  unfold InMemoryCache.set
  rw [mapGet_eq_none hk]
  simp only
  rw [evictWhile_of_lt jsonLen c.cache.length c hlen]
  simp only
  rw [mapSet_of_not_mem _ hk]

/-- Setting a fresh key when the map is exactly at capacity (and the oldest
key is not falsy) evicts that oldest entry once and then appends. -/
theorem set_at_capacity_fresh {T : Type} (jsonLen : T → Nat) (now : Nat) (k : String)
    (v : T) (ttlMinutes : Nat) (c : InMemoryCache T) (k0 : String) (e0 : CacheEntry T)
    (rest : List (String × CacheEntry T))
    (hc : c.cache = (k0, e0) :: rest) (hk0 : k0 ≠ "")
    (hk : k ∉ c.cache.map Prod.fst) (hlen : c.cache.length = c.maxSize) :
    InMemoryCache.set jsonLen now k v ttlMinutes c = some
      { cache := rest ++ [(k, ⟨v, now, ttlMinutes * 60 * 1000, k⟩)]
        stats := { c.stats with
          sets := c.stats.sets + 1
          size := c.stats.size
          totalMemoryUsage := c.stats.totalMemoryUsage
            - (InMemoryCache.calculateSize jsonLen e0.value : Int)
            + (InMemoryCache.calculateSize jsonLen v : Int) }
        maxSize := c.maxSize } := by
  have hrest : k ∉ rest.map Prod.fst := by
    rw [hc] at hk
    simp only [List.map_cons, List.mem_cons, not_or] at hk
    exact hk.2
  have hev1 : InMemoryCache.evictOldest jsonLen c =
      { c with
        cache := rest
        stats := { c.stats with
          totalMemoryUsage := c.stats.totalMemoryUsage
            - (InMemoryCache.calculateSize jsonLen e0.value : Int)
          size := c.stats.size - 1 } } := by
    unfold InMemoryCache.evictOldest
    rw [hc]
    simp only [if_neg hk0]
  have hlen2 : c.cache.length = rest.length + 1 := by rw [hc]; rfl
  have hev : InMemoryCache.evictWhile jsonLen (c.cache.length + 1) c = some
      { c with
        cache := rest
        stats := { c.stats with
          totalMemoryUsage := c.stats.totalMemoryUsage
            - (InMemoryCache.calculateSize jsonLen e0.value : Int)
          size := c.stats.size - 1 } } := by
    rw [hlen2]
    unfold InMemoryCache.evictWhile
    rw [if_pos (by omega), hev1]
    unfold InMemoryCache.evictWhile
    rw [if_neg (by simp; omega)]
  unfold InMemoryCache.set
  rw [mapGet_eq_none hk]
  simp only
  rw [hev]
  simp only
  rw [mapSet_of_not_mem _ hrest]
  simp only [Option.some.injEq, InMemoryCache.mk.injEq, CacheStats.mk.injEq, true_and,
    and_true]
  and_intros <;> first | trivial | omega

/-- Unfolding equation of `insertAll` on a nonempty call list. -/
theorem insertAll_cons {T : Type} (jsonLen : T → Nat) (i : SetCall T)
    (rest : List (SetCall T)) (c : InMemoryCache T) :
    insertAll jsonLen (i :: rest) c =
      match InMemoryCache.set jsonLen i.now i.key i.value i.ttlMinutes c with
      | none => none
      | some c1 => insertAll jsonLen rest c1 := rfl

/-- Running `insertAll` on a concatenation chains the two halves. -/
theorem insertAll_append {T : Type} (jsonLen : T → Nat) (l1 l2 : List (SetCall T))
    (c : InMemoryCache T) :
    insertAll jsonLen (l1 ++ l2) c =
      match insertAll jsonLen l1 c with
      | none => none
      | some c1 => insertAll jsonLen l2 c1 := by
  induction l1 generalizing c with
  | nil => rfl
  | cons i rest ih =>
    rw [List.cons_append, insertAll_cons, insertAll_cons]
    cases hset : InMemoryCache.set jsonLen i.now i.key i.value i.ttlMinutes c with
    | none => rfl
    | some c1 => exact ih c1

/-- Folding a sequence of fresh `set` calls that all fit under capacity
appends each entry in order and bumps the counters accordingly. -/
theorem insertAll_fresh {T : Type} (jsonLen : T → Nat) (ins : List (SetCall T)) :
    ∀ c : InMemoryCache T,
      (ins.map SetCall.key).Nodup →
      (∀ i ∈ ins, i.key ∉ c.cache.map Prod.fst) →
      c.cache.length + ins.length ≤ c.maxSize →
      insertAll jsonLen ins c = some
        { cache := c.cache ++ entriesOf ins
          stats := { c.stats with
            sets := c.stats.sets + ins.length
            size := c.stats.size + (ins.length : Int)
            totalMemoryUsage := c.stats.totalMemoryUsage + memOf jsonLen ins }
          maxSize := c.maxSize } := by
  induction ins with
  | nil =>
    intro c _ _ _
    simp [insertAll, entriesOf, memOf]
  | cons i rest ih =>
    intro c hnd hdisj hlen
    have hk : i.key ∉ c.cache.map Prod.fst := hdisj i (List.mem_cons_self i rest)
    have hlt : c.cache.length < c.maxSize := by
      simp only [List.length_cons] at hlen
      omega
    have hndr : (rest.map SetCall.key).Nodup := by
      simp only [List.map_cons, List.nodup_cons] at hnd
      exact hnd.2
    have hkey_rest : i.key ∉ rest.map SetCall.key := by
      simp only [List.map_cons, List.nodup_cons] at hnd
      exact hnd.1
    unfold insertAll
    rw [set_fresh jsonLen i.now i.key i.value i.ttlMinutes c hk hlt]
    simp only
    rw [ih _ hndr ?hdisj ?hlen]
    case hdisj =>
      intro j hj
      simp only [List.map_append, List.mem_append, List.map_cons, List.map_nil,
        List.mem_singleton, not_or]
      refine ⟨hdisj j (List.mem_cons_of_mem i hj), ?_⟩
      intro hje
      exact hkey_rest (hje ▸ List.mem_map_of_mem SetCall.key hj)
    case hlen =>
      simp only [List.length_append, List.length_cons, List.length_nil]
      simp only [List.length_cons] at hlen
      omega
    congr 1
    have hcache : (c.cache ++ [(i.key, (⟨i.value, i.now, i.ttlMinutes * 60 * 1000,
        i.key⟩ : CacheEntry T))]) ++ entriesOf rest = c.cache ++ entriesOf (i :: rest) := by
      simp [entriesOf, mkEntry, List.append_assoc]
    have hmem : memOf jsonLen (i :: rest) =
        (InMemoryCache.calculateSize jsonLen i.value : Int) + memOf jsonLen rest := by
      simp [memOf]
    simp only [Option.some.injEq, InMemoryCache.mk.injEq, CacheStats.mk.injEq, true_and,
      and_true]
    and_intros <;> first
      | trivial
      | exact hcache
      | (simp only [List.length_cons]; push_cast; omega)
      | (rw [hmem]; omega)

/-- C5: for every expiry instant and clock value, `shouldRefreshToken` holds
exactly when the token expires within 3600 seconds, independently of
`isTokenExpired` (which is `now >= expiry`): both truth values of
`isTokenExpired` occur among instants that are due for refresh. -/
theorem c5_shouldRefresh_spec :
    (∀ now e : Int, StravaAPI.shouldRefreshToken now e = true ↔ e - now ≤ 3600)
    ∧ (∀ now e : Int, StravaAPI.isTokenExpired now e = true ↔ now ≥ e)
    ∧ (∃ now e : Int, StravaAPI.shouldRefreshToken now e = true
        ∧ StravaAPI.isTokenExpired now e = false)
    ∧ (∃ now e : Int, StravaAPI.shouldRefreshToken now e = true
        ∧ StravaAPI.isTokenExpired now e = true) := by
  refine ⟨fun now e => ?_, fun now e => ?_, ⟨0, 100, by decide⟩, ⟨0, -1, by decide⟩⟩
  · simp [StravaAPI.shouldRefreshToken]
  · simp [StravaAPI.isTokenExpired]

/-- C6: when the token is not due for refresh, `ensureValidToken` returns the
current access token unchanged, with zero issuer calls and zero token-store
writes. -/
theorem c6_no_refresh_no_effects (now : Int) (accessTok refreshTok : String)
    (expiresAt : Int) (issuer : String → StravaAPI.IssuerHttpResponse) (storeOk : Bool)
    (h : StravaAPI.shouldRefreshToken now expiresAt = false) :
    StravaAPI.ensureValidToken now accessTok refreshTok expiresAt issuer storeOk =
      ⟨.ok accessTok, 0, 0⟩ := by
  unfold StravaAPI.ensureValidToken
  rw [h]
  rfl

/-- Witness for C6 at a concrete unexpired credential. -/
theorem c6_witness :
    StravaAPI.shouldRefreshToken 0 10000 = false
    ∧ StravaAPI.ensureValidToken 0 "tokA" "tokR" 10000
        (fun _ => ⟨200, some "x", some "y", some 1⟩) true = ⟨.ok "tokA", 0, 0⟩ :=
  ⟨by decide, c6_no_refresh_no_effects 0 "tokA" "tokR" 10000
    (fun _ => ⟨200, some "x", some "y", some 1⟩) true (by decide)⟩

/-- C7: when a refresh is due and the issuer succeeds, `ensureValidToken`
returns the issuer's new access token and raises no error even though the
token-store write fails. -/
theorem c7_store_failure_nonfatal (now : Int) (accessTok refreshTok : String)
    (expiresAt : Int) (issuer : String → StravaAPI.IssuerHttpResponse)
    (td : StravaAPI.StravaTokenResponse)
    (hdue : StravaAPI.shouldRefreshToken now expiresAt = true)
    (hok : StravaAPI.refreshToken (issuer refreshTok) = .ok td) :
    StravaAPI.ensureValidToken now accessTok refreshTok expiresAt issuer false =
      ⟨.ok td.access_token, 1, 1⟩ := by
  unfold StravaAPI.ensureValidToken
  rw [hdue, hok]
  rfl

/-- Witness for C7: the returned token is the issuer's new token, which
differs from the old one. -/
theorem c7_witness :
    StravaAPI.shouldRefreshToken 0 0 = true
    ∧ StravaAPI.refreshToken ⟨200, some "newA", some "newR", some 999⟩ =
        .ok ⟨"newA", "newR", 999⟩
    ∧ "newA" ≠ "oldA"
    ∧ StravaAPI.ensureValidToken 0 "oldA" "oldR" 0
        (fun _ => ⟨200, some "newA", some "newR", some 999⟩) false = ⟨.ok "newA", 1, 1⟩ :=
  ⟨by decide, by rfl, by decide,
   c7_store_failure_nonfatal 0 "oldA" "oldR" 0
     (fun _ => ⟨200, some "newA", some "newR", some 999⟩) ⟨"newA", "newR", 999⟩
     (by decide) (by rfl)⟩

/-- C8: an issuer failure — a non-2xx status, or a 2xx response missing any
of the three token fields — makes the whole `ensureValidToken` operation fail
with the re-authentication error, after exactly one issuer attempt and no
internal retry. -/
theorem c8_issuer_failure_fatal :
    (∀ resp : StravaAPI.IssuerHttpResponse,
      httpOk resp.status = false ∨ resp.access_token = none ∨ resp.refresh_token = none ∨
        resp.expires_at = none →
      StravaAPI.isErr (StravaAPI.refreshToken resp) = true)
    ∧ (∀ (now : Int) (accessTok refreshTok : String) (expiresAt : Int)
        (issuer : String → StravaAPI.IssuerHttpResponse) (storeOk : Bool)
        (err : StravaAPI.RefreshError),
      StravaAPI.shouldRefreshToken now expiresAt = true →
      StravaAPI.refreshToken (issuer refreshTok) = .error err →
      StravaAPI.ensureValidToken now accessTok refreshTok expiresAt issuer storeOk =
        ⟨.error "Token refresh failed. Re-authentication required.", 1, 0⟩) := by
  constructor
  · rintro ⟨s, a, r, e⟩ h
    cases hok : httpOk s with
    | false =>
      by_cases h4 : (s == 400) = true
      · simp [StravaAPI.refreshToken, hok, h4, StravaAPI.isErr]
      · by_cases h1 : (s == 401) = true
        · simp [StravaAPI.refreshToken, hok, h4, h1, StravaAPI.isErr]
        · simp [StravaAPI.refreshToken, hok, h4, h1, StravaAPI.isErr]
    | true =>
      rcases h with h | h | h | h
      · rw [hok] at h
        exact absurd h (by simp)
      · subst h
        simp [StravaAPI.refreshToken, hok, StravaAPI.isErr]
      · subst h
        cases a <;> simp [StravaAPI.refreshToken, hok, StravaAPI.isErr]
      · subst h
        cases a <;> cases r <;> simp [StravaAPI.refreshToken, hok, StravaAPI.isErr]
  · intro now accessTok refreshTok expiresAt issuer storeOk err hdue herr
    unfold StravaAPI.ensureValidToken
    rw [hdue, herr]
    rfl

/-- Witness for C8: a 503 status and a 2xx response missing `access_token`
are both fatal, with one issuer attempt. -/
theorem c8_witness :
    StravaAPI.isErr (StravaAPI.refreshToken ⟨503, some "a", some "r", some 5⟩) = true
    ∧ StravaAPI.shouldRefreshToken 0 0 = true
    ∧ StravaAPI.refreshToken ⟨200, none, some "r", some 5⟩ =
        .error StravaAPI.RefreshError.invalidTokenResponse
    ∧ StravaAPI.ensureValidToken 0 "oldA" "oldR" 0
        (fun _ => ⟨200, none, some "r", some 5⟩) true =
        ⟨.error "Token refresh failed. Re-authentication required.", 1, 0⟩ :=
  ⟨c8_issuer_failure_fatal.1 ⟨503, some "a", some "r", some 5⟩ (Or.inl (by decide)),
   by decide, by rfl,
   c8_issuer_failure_fatal.2 0 "oldA" "oldR" 0 (fun _ => ⟨200, none, some "r", some 5⟩)
     true StravaAPI.RefreshError.invalidTokenResponse (by decide) (by rfl)⟩

/-- C9: `get` misses and counts a miss on an absent key; reaps the entry and
counts both a miss and a delete (adjusting occupancy, with no separate expiry
counter) on an expired entry; and on a fresh entry counts a hit and returns
the value stored by the most recent `set` of that key. -/
theorem c9_get_semantics {T : Type} (jsonLen : T → Nat) :
    (∀ (now : Nat) (key : String) (c : InMemoryCache T),
      mapGet c.cache key = none →
      InMemoryCache.get jsonLen now key c =
        (none, { c with stats := { c.stats with misses := c.stats.misses + 1 } }))
    ∧ (∀ (now : Nat) (key : String) (c : InMemoryCache T) (e : CacheEntry T),
      mapGet c.cache key = some e → InMemoryCache.isExpired now e = true →
      InMemoryCache.get jsonLen now key c =
        (none, { c with
          cache := mapDelete c.cache key
          stats := { c.stats with
            misses := c.stats.misses + 1
            deletes := c.stats.deletes + 1
            size := c.stats.size - 1
            totalMemoryUsage := c.stats.totalMemoryUsage
              - (InMemoryCache.calculateSize jsonLen e.value : Int) } }))
    ∧ (∀ (now : Nat) (key : String) (c : InMemoryCache T) (e : CacheEntry T),
      mapGet c.cache key = some e → InMemoryCache.isExpired now e = false →
      InMemoryCache.get jsonLen now key c =
        (some e.value, { c with stats := { c.stats with hits := c.stats.hits + 1 } }))
    ∧ (∀ (now later : Nat) (key : String) (v : T) (ttlMinutes : Nat)
        (c c1 : InMemoryCache T),
      InMemoryCache.set jsonLen now key v ttlMinutes c = some c1 →
      later - now ≤ ttlMinutes * 60 * 1000 →
      (InMemoryCache.get jsonLen later key c1).1 = some v) := by
  refine ⟨?_, ?_, ?_, ?_⟩
  · intro now key c h
    simp [InMemoryCache.get, h]
  · intro now key c e h hexp
    simp [InMemoryCache.get, h, hexp]
  · intro now key c e h hexp
    simp [InMemoryCache.get, h, hexp]
  · intro now later key v ttlMinutes c c1 hset hfresh
    simp only [InMemoryCache.set] at hset
    split at hset
    · exact absurd hset (by simp)
    · rename_i c2 heq
      have hc1 : c1 = { c2 with
          cache := mapSet c2.cache key ⟨v, now, ttlMinutes * 60 * 1000, key⟩
          stats := { c2.stats with
            sets := c2.stats.sets + 1
            size := c2.stats.size + 1
            totalMemoryUsage := c2.stats.totalMemoryUsage
              + (InMemoryCache.calculateSize jsonLen v : Int) } } := by
        injection hset with h1
        exact h1.symm
      subst hc1
      have hnotexp : InMemoryCache.isExpired later
          (⟨v, now, ttlMinutes * 60 * 1000, key⟩ : CacheEntry T) = false := by
        simp only [InMemoryCache.isExpired, decide_eq_false_iff_not, not_lt]
        exact hfresh
      unfold InMemoryCache.get
      simp only [mapGet_mapSet_self, hnotexp, Bool.false_eq_true, if_false]

/-- Witness for C9: all four behaviours at concrete states. -/
theorem c9_witness :
    mapGet (InMemoryCache.emptyCache 10 : InMemoryCache Nat).cache "a" = none
    ∧ InMemoryCache.get (fun n : Nat => n) 0 "a"
        (InMemoryCache.emptyCache 10 : InMemoryCache Nat) =
        (none, ⟨[], ⟨0, 1, 0, 0, 0, 0⟩, 10⟩)
    ∧ InMemoryCache.isExpired 5000 (⟨5, 0, 1000, "k"⟩ : CacheEntry Nat) = true
    ∧ InMemoryCache.get (fun n : Nat => n) 5000 "k"
        ⟨[("k", ⟨5, 0, 1000, "k"⟩)], ⟨2, 3, 4, 5, 1, 10⟩, 100⟩ =
        (none, ⟨[], ⟨2, 4, 4, 6, 0, 0⟩, 100⟩)
    ∧ InMemoryCache.isExpired 500 (⟨5, 0, 1000, "k"⟩ : CacheEntry Nat) = false
    ∧ InMemoryCache.get (fun n : Nat => n) 500 "k"
        ⟨[("k", ⟨5, 0, 1000, "k"⟩)], ⟨2, 3, 4, 5, 1, 10⟩, 100⟩ =
        (some 5, ⟨[("k", ⟨5, 0, 1000, "k"⟩)], ⟨3, 3, 4, 5, 1, 10⟩, 100⟩)
    ∧ InMemoryCache.set (fun n : Nat => n) 0 "k" 5 3
        (InMemoryCache.emptyCache 10 : InMemoryCache Nat) =
        some ⟨[("k", ⟨5, 0, 180000, "k"⟩)], ⟨0, 0, 1, 0, 1, 10⟩, 10⟩
    ∧ (InMemoryCache.get (fun n : Nat => n) 100 "k"
        ⟨[("k", ⟨5, 0, 180000, "k"⟩)], ⟨0, 0, 1, 0, 1, 10⟩, 10⟩).1 = some 5 :=
  ⟨by rfl,
   (c9_get_semantics (fun n : Nat => n)).1 0 "a" (InMemoryCache.emptyCache 10) (by rfl),
   by rfl,
   (c9_get_semantics (fun n : Nat => n)).2.1 5000 "k"
     ⟨[("k", ⟨5, 0, 1000, "k"⟩)], ⟨2, 3, 4, 5, 1, 10⟩, 100⟩ ⟨5, 0, 1000, "k"⟩
     (by rfl) (by rfl),
   by rfl,
   (c9_get_semantics (fun n : Nat => n)).2.2.1 500 "k"
     ⟨[("k", ⟨5, 0, 1000, "k"⟩)], ⟨2, 3, 4, 5, 1, 10⟩, 100⟩ ⟨5, 0, 1000, "k"⟩
     (by rfl) (by rfl),
   by rfl,
   (c9_get_semantics (fun n : Nat => n)).2.2.2 0 100 "k" 5 3
     (InMemoryCache.emptyCache 10) ⟨[("k", ⟨5, 0, 180000, "k"⟩)], ⟨0, 0, 1, 0, 1, 10⟩, 10⟩
     (by rfl) (by decide)⟩

/-- C10: on an expired but not yet reaped entry, `getInfo` still reports
presence together with age, TTL and size — it never checks or triggers
expiry — while `get` on the very same state returns absent. -/
theorem c10_getInfo_ignores_expiry {T : Type} (jsonLen : T → Nat) (now : Nat)
    (key : String) (c : InMemoryCache T) (e : CacheEntry T)
    (hfind : mapGet c.cache key = some e)
    (hexp : InMemoryCache.isExpired now e = true) :
    InMemoryCache.getInfo jsonLen now key c =
      ⟨true, some (InMemoryCache.jsRound1000 (now - e.timestamp)),
        some (InMemoryCache.jsRound1000 e.ttl),
        some (InMemoryCache.calculateSize jsonLen e.value)⟩
    ∧ (InMemoryCache.get jsonLen now key c).1 = none := by
  constructor
  · unfold InMemoryCache.getInfo
    rw [hfind]
  · simp [InMemoryCache.get, hfind, hexp]

/-- Witness for C10 at a concrete expired entry. -/
theorem c10_witness :
    mapGet ([("k", (⟨5, 0, 1000, "k"⟩ : CacheEntry Nat))]) "k" = some ⟨5, 0, 1000, "k"⟩
    ∧ InMemoryCache.isExpired 5000 (⟨5, 0, 1000, "k"⟩ : CacheEntry Nat) = true
    ∧ InMemoryCache.getInfo (fun n : Nat => n) 5000 "k"
        ⟨[("k", ⟨5, 0, 1000, "k"⟩)], ⟨0, 0, 1, 0, 1, 10⟩, 100⟩ =
        ⟨true, some 5, some 1, some 10⟩
    ∧ (InMemoryCache.get (fun n : Nat => n) 5000 "k"
        ⟨[("k", ⟨5, 0, 1000, "k"⟩)], ⟨0, 0, 1, 0, 1, 10⟩, 100⟩).1 = none :=
  ⟨by rfl, by rfl,
   (c10_getInfo_ignores_expiry (fun n : Nat => n) 5000 "k"
     ⟨[("k", ⟨5, 0, 1000, "k"⟩)], ⟨0, 0, 1, 0, 1, 10⟩, 100⟩ ⟨5, 0, 1000, "k"⟩
     (by rfl) (by rfl)).1,
   (c10_getInfo_ignores_expiry (fun n : Nat => n) 5000 "k"
     ⟨[("k", ⟨5, 0, 1000, "k"⟩)], ⟨0, 0, 1, 0, 1, 10⟩, 100⟩ ⟨5, 0, 1000, "k"⟩
     (by rfl) (by rfl)).2⟩

/-- C1 (amended): in the paginated `getAllActivities`, any non-OK page
response (a 401 included) aborts the whole fetch at once — the failing page
is requested exactly once, with no token refresh and no retry; the
one-refresh-one-retry behaviour lives only in the single-request
`fetchStravaActivities`, where a 401 triggers exactly one token refresh and
one retry of that same request, and a 401 on the retry is fatal. -/
theorem c1_401_handling {A : Type} :
    (∀ (pages : Nat → UpstreamHttp A) (fuel page : Nat) (acc : List A)
        (calls : List Nat),
      httpOk (pages page).status = false →
      getAllActivitiesLoop pages (fuel + 1) page acc calls =
        some (.error .failedToFetch, calls ++ [page]))
    ∧ (∀ (jsonLen : List A → Nat) (now : Nat) (c : InMemoryCache (List A))
        (resp1 resp2 : UpstreamHttp A) (newTok : String),
      (InMemoryCache.get jsonLen now STRAVA_ACTIVITIES c).1 = none →
      resp1.status = 401 → resp2.status = 401 → newTok ≠ "" →
      fetchStravaActivities jsonLen now c resp1 resp2 (some newTok) =
        some ⟨.error "Strava authorization failed", 2, 1,
          (InMemoryCache.get jsonLen now STRAVA_ACTIVITIES c).2⟩) := by
  constructor
  · intro pages fuel page acc calls h
    simp [getAllActivitiesLoop, h]
  · intro jsonLen now c resp1 resp2 newTok hmiss h1 h2 htok
    have htokF : (newTok == "") = false := by
      simp only [beq_eq_false_iff_ne]
      exact htok
    unfold fetchStravaActivities
    cases hg : InMemoryCache.get jsonLen now STRAVA_ACTIVITIES c with
    | mk r c1 =>
      rw [hg] at hmiss
      simp only at hmiss
      subst hmiss
      simp only [h1, htokF]
      unfold finishFetch
      rw [h2]
      simp [show httpOk 401 = false from rfl]

/-- Witness for C1 at concrete always-401 upstreams. -/
theorem c1_witness :
    httpOk ((fun _ : Nat => (⟨401, ([] : List Nat)⟩ : UpstreamHttp Nat)) 1).status = false
    ∧ getAllActivitiesLoop (fun _ : Nat => (⟨401, ([] : List Nat)⟩ : UpstreamHttp Nat))
        5 1 [] [] = some (.error .failedToFetch, [1])
    ∧ (InMemoryCache.get (fun l : List Nat => l.length) 0 STRAVA_ACTIVITIES
        (InMemoryCache.emptyCache 5)).1 = none
    ∧ fetchStravaActivities (fun l : List Nat => l.length) 0
        (InMemoryCache.emptyCache 5) ⟨401, []⟩ ⟨401, []⟩ (some "newTok") =
        some ⟨.error "Strava authorization failed", 2, 1, ⟨[], ⟨0, 1, 0, 0, 0, 0⟩, 5⟩⟩ :=
  ⟨by rfl,
   c1_401_handling.1 (fun _ => ⟨401, []⟩) 4 1 [] [] (by rfl),
   by rfl,
   c1_401_handling.2 (fun l => l.length) 0 (InMemoryCache.emptyCache 5)
     ⟨401, []⟩ ⟨401, []⟩ "newTok" (by rfl) rfl rfl (by decide)⟩

/-- C1 counterexample: with every page answering 401, the paginated
`getAllActivities` fails at once with page 1 requested exactly once — the
trace would have to read `[1, 1]` for the current page to have been retried
after a forced refresh, as the claim demands. -/
theorem c1_counterexample :
    getAllActivities (fun _ : Nat => (⟨401, ([] : List Nat)⟩ : UpstreamHttp Nat)) 5 =
      some (.error .failedToFetch, [1])
    ∧ ([1] : List Nat) ≠ [1, 1] :=
  ⟨by rfl, by decide⟩

/-- C2 is violated by the code: replacing the value of key "b" while the
cache is at capacity 2 evicts the other key "a", because the replace branch
only rolls the counters back and never removes the old map entry, so the
capacity loop still sees a full map.  Only "b" survives the replacing set. -/
theorem c2_replacement_evicts :
    (insertAll (fun n : Nat => n)
        [⟨"a", 10, 5, 0⟩, ⟨"b", 20, 5, 0⟩, ⟨"b", 21, 5, 1⟩]
        (InMemoryCache.emptyCache 2)).map (fun c => c.cache.map Prod.fst) =
      some ["b"] := by rfl

/-- C3 is violated by the code: replacing the oldest key "a" at capacity 2
double-retires its stats (once in the replace branch, once in the eviction),
leaving the map with 2 live entries while `stats.size` records 1, and
`totalMemoryUsage` at 42 while the live entries' sizes sum to 62. -/
theorem c3_stats_diverge :
    (insertAll (fun n : Nat => n)
        [⟨"a", 10, 5, 0⟩, ⟨"b", 20, 5, 0⟩, ⟨"a", 11, 5, 1⟩]
        (InMemoryCache.emptyCache 2)).map
      (fun c => ((c.cache.length : Int), c.stats.size, c.stats.totalMemoryUsage,
        (c.cache.map (fun p =>
          (InMemoryCache.calculateSize (fun n : Nat => n) p.2.value : Int))).sum)) =
      some (2, 1, 42, 62) := by rfl

/-- C4 (amended): starting from an empty cache of capacity `mid.length + 1`,
inserting `mid.length + 2` distinct new keys whose first key is not the empty
string causes exactly one eviction, of the single oldest-inserted key, and
leaves both the map and the size counter at exactly `maxSize`.  (When the
oldest key is the empty string the eviction loop of the source spins forever
instead; see the counterexample.) -/
theorem c4_capacity_eviction {T : Type} (jsonLen : T → Nat) (first : SetCall T)
    (mid : List (SetCall T)) (last : SetCall T)
    (hnodup : ((first :: (mid ++ [last])).map SetCall.key).Nodup)
    (hk0 : first.key ≠ "") :
    insertAll jsonLen (first :: (mid ++ [last]))
        (InMemoryCache.emptyCache (mid.length + 1)) =
      some
        { cache := entriesOf (mid ++ [last])
          stats := ⟨0, 0, mid.length + 2, 0, (mid.length : Int) + 1,
            memOf jsonLen (mid ++ [last])⟩
          maxSize := mid.length + 1 } := by
  have hkeys : (((first :: mid).map SetCall.key).Nodup)
      ∧ last.key ∉ (first :: mid).map SetCall.key := by
    have h2 : (((first :: mid) ++ [last]).map SetCall.key).Nodup := hnodup
    rw [List.map_append, List.nodup_append] at h2
    exact ⟨h2.1, fun hmem => h2.2.2 hmem (List.mem_singleton_self last.key)⟩
  have hsplit : (first :: (mid ++ [last])) = (first :: mid) ++ [last] := rfl
  rw [hsplit, insertAll_append]
  rw [insertAll_fresh jsonLen (first :: mid) (InMemoryCache.emptyCache (mid.length + 1))
    hkeys.1 (by intro i hi; simp [InMemoryCache.emptyCache])
    (by simp only [InMemoryCache.emptyCache, List.length_nil, List.length_cons]; omega)]
  simp only
  rw [insertAll_cons]
  rw [set_at_capacity_fresh jsonLen last.now last.key last.value last.ttlMinutes _
    first.key (mkEntry first) (entriesOf mid) ?hc hk0 ?hk ?hlen]
  case hc => simp [InMemoryCache.emptyCache, entriesOf, mkEntry]
  case hk =>
    simp only [InMemoryCache.emptyCache, List.nil_append, entriesOf, List.map_map]
    intro hmem
    apply hkeys.2
    simpa [Function.comp] using hmem
  case hlen =>
    simp [InMemoryCache.emptyCache, entriesOf]
  simp only [insertAll, Option.some.injEq, InMemoryCache.mk.injEq, CacheStats.mk.injEq,
    InMemoryCache.emptyCache, true_and, and_true]
  have hmem2 : memOf jsonLen ((first :: mid) : List (SetCall T)) =
      (InMemoryCache.calculateSize jsonLen first.value : Int) + memOf jsonLen mid := by
    simp [memOf]
  have hmem3 : memOf jsonLen (mid ++ [last]) =
      memOf jsonLen mid + (InMemoryCache.calculateSize jsonLen last.value : Int) := by
    simp [memOf]
  and_intros <;> first
    | trivial
    | (simp only [mkEntry, hmem2, hmem3, List.length_cons]; push_cast; omega)
    | (simp only [List.length_cons]; push_cast; omega)
    | (simp [entriesOf, mkEntry]; done)

/-- Witness for C4: capacity 2, keys "a", "b", "c": "a" is evicted, "b" and
"c" remain, size counter 2, eight bytes plus twelve bytes of memory. -/
theorem c4_witness :
    ((((⟨"a", 1, 5, 0⟩ : SetCall Nat) :: ([⟨"b", 2, 5, 0⟩] ++ [⟨"c", 3, 5, 0⟩])).map
        SetCall.key).Nodup)
    ∧ ("a" : String) ≠ ""
    ∧ insertAll (fun n : Nat => n)
        ((⟨"a", 1, 5, 0⟩ : SetCall Nat) :: ([⟨"b", 2, 5, 0⟩] ++ [⟨"c", 3, 5, 0⟩]))
        (InMemoryCache.emptyCache 2) =
        some ⟨[("b", ⟨2, 0, 300000, "b"⟩), ("c", ⟨3, 0, 300000, "c"⟩)],
          ⟨0, 0, 3, 0, 2, 10⟩, 2⟩ :=
  ⟨by decide, by decide,
   c4_capacity_eviction (fun n : Nat => n) ⟨"a", 1, 5, 0⟩ [⟨"b", 2, 5, 0⟩] ⟨"c", 3, 5, 0⟩
     (by decide) (by decide)⟩

/-- C4 counterexample: with capacity 1 and the empty string as the first
(and hence oldest) key, the second, fresh insert drives the source's
eviction loop forever — `evictOldest` skips the falsy key, the map never
shrinks, and the insert never completes, so no state of size `maxSize`
results. -/
theorem c4_counterexample :
    insertAll (fun n : Nat => n) [⟨"", 7, 5, 0⟩, ⟨"a", 8, 5, 0⟩]
      (InMemoryCache.emptyCache 1) = none := by rfl

end ThreeK
